import Mathlib

/-!
Verification development for the arc-matrix-messenger bridge.

The definitions below are a shallow embedding of the TypeScript source:
the canonical-event store writer (`Database.insertCanonicalEvent` in
`src/handlers/database.ts`), the SAS verification state machine of
`src/matrix-app.ts` (guard sets `boundTxns` / `begunHandshakeTxns`, the
pending-request map, the readline confirm queue), the key-request
de-duplication of `tryRequestMissingKeys`, the canonical event mapper
`translateMatrixEvent` and the ingestion handlers of
`src/handlers/matrix-events.ts`, and the configuration flag parsing of
`src/config.ts`.  JavaScript truthiness on strings is modelled explicitly:
an absent field is `none` and the empty string counts as falsy.
-/

namespace ArcMatrix

deriving instance DecidableEq for Except

/-! ## Canonical event payloads (flattened `content` / `relatesTo`) -/

/-- Enriched reply metadata attached to a mapped message
(`EnrichedMessage.replyTo` in `matrix-events.ts`). -/
structure ReplyTo where
  eventId : String
  senderId : Option String := none
  body : Option String := none
  timestamp : Option Nat := none
  deriving DecidableEq, Repr

/-- Payload of a canonical messenger event.  The source stores a free-form
object; we keep the fields the claims and the store filters touch. -/
structure EventContent where
  body : Option String := none
  msgtype : Option String := none
  ack : Option String := none
  emoji : Option String := none
  targetMessageId : Option String := none
  replyTo : Option ReplyTo := none
  deriving DecidableEq, Repr

/-- A canonical messenger event as handed to `insertCanonicalEvent`.
`relatesToEventId` flattens `relatesTo.eventId`. -/
structure CanonicalEvent where
  source : String
  arcUserId : String
  eventId : Option String
  type : String
  roomId : String
  senderId : String
  timestamp : Nat
  encrypted : Bool
  relatesToEventId : Option String
  content : EventContent
  deriving DecidableEq, Repr

/-- A document in the `events` collection: the event fields plus the
ingestion-time fields maintained by the writer. -/
structure EventDoc where
  source : String
  arcUserId : String
  eventId : Option String
  type : String
  roomId : String
  senderId : String
  timestamp : Nat
  encrypted : Bool
  relatesToEventId : Option String
  content : EventContent
  ingestedAt : Nat
  updatedAt : Nat
  deriving DecidableEq, Repr

/-- A MongoDB equality filter over event documents; `none` means the field
is unconstrained. -/
structure EventFilter where
  source : String
  arcUserId : String
  eventId : Option String := none
  type : Option String := none
  roomId : Option String := none
  senderId : Option String := none
  relatesToEventId : Option String := none
  timestamp : Option Nat := none
  deriving DecidableEq, Repr

/-- JS truthiness on an optional string: `none` stands for an absent field
and the empty string is falsy. -/
def truthyOpt (o : Option String) : Option String :=
  match o with
  | some s => if s = "" then none else some s
  | none => none

/-- Filter built by `insertCanonicalEvent` when `eventId` is absent or empty
(the JS truthiness check `event?.eventId && typeof ... === 'string'`). -/
def filterNoId (e : CanonicalEvent) : EventFilter :=
  if e.type = "receipt" then
    { source := e.source, arcUserId := e.arcUserId, type := some "receipt",
      roomId := some e.roomId, senderId := some e.senderId,
      relatesToEventId := truthyOpt e.relatesToEventId }
  else
    { source := e.source, arcUserId := e.arcUserId, type := some e.type,
      roomId := some e.roomId, senderId := some e.senderId,
      timestamp := some e.timestamp }

/-- The identity filter of `Database.insertCanonicalEvent`: eventId-based
when a non-empty eventId exists, else the receipt composite key, else the
fallback composite including the timestamp. -/
def filterFor (e : CanonicalEvent) : EventFilter :=
  match e.eventId with
  | some eid =>
      if eid = "" then filterNoId e
      else { source := e.source, arcUserId := e.arcUserId, eventId := some eid }
  | none => filterNoId e

/-- Does a document satisfy an equality filter? -/
def matchesFilter (f : EventFilter) (d : EventDoc) : Bool :=
  f.source == d.source && f.arcUserId == d.arcUserId &&
  (match f.eventId with | none => true | some v => d.eventId == some v) &&
  (match f.type with | none => true | some v => d.type == v) &&
  (match f.roomId with | none => true | some v => d.roomId == v) &&
  (match f.senderId with | none => true | some v => d.senderId == v) &&
  (match f.relatesToEventId with
   | none => true
   | some v => d.relatesToEventId == some v) &&
  (match f.timestamp with | none => true | some v => d.timestamp == v)

/-- Effect of the `$set: { ...event, updatedAt: now }` stage on a matched
document: every event field is overwritten, `updatedAt` is refreshed and
`ingestedAt` (only in `$setOnInsert`) is preserved. -/
def applySet (e : CanonicalEvent) (now : Nat) (d : EventDoc) : EventDoc :=
  { source := e.source, arcUserId := e.arcUserId, eventId := e.eventId,
    type := e.type, roomId := e.roomId, senderId := e.senderId,
    timestamp := e.timestamp, encrypted := e.encrypted,
    relatesToEventId := e.relatesToEventId, content := e.content,
    ingestedAt := d.ingestedAt, updatedAt := now }

/-- Document created on upsert-insert: `$set` plus `$setOnInsert`. -/
def insertDoc (e : CanonicalEvent) (now : Nat) : EventDoc :=
  { source := e.source, arcUserId := e.arcUserId, eventId := e.eventId,
    type := e.type, roomId := e.roomId, senderId := e.senderId,
    timestamp := e.timestamp, encrypted := e.encrypted,
    relatesToEventId := e.relatesToEventId, content := e.content,
    ingestedAt := now, updatedAt := now }

/-- `updateOne(filter, update, { upsert: true })`: update the first matching
document, or append a fresh one when none matches. -/
def upsertOne (f : EventFilter) (e : CanonicalEvent) (now : Nat) :
    List EventDoc → List EventDoc
  | [] => [insertDoc e now]
  | d :: ds =>
      if matchesFilter f d then applySet e now d :: ds
      else d :: upsertOne f e now ds

/-- `Database.insertCanonicalEvent`: upsert by the type-specific identity
filter. -/
def insertCanonicalEvent (events : List EventDoc) (e : CanonicalEvent)
    (now : Nat) : List EventDoc :=
  upsertOne (filterFor e) e now events

/-- Number of documents matching a filter. -/
def countMatching (f : EventFilter) (l : List EventDoc) : Nat :=
  (l.filter (fun d => matchesFilter f d)).length

theorem truthyOpt_consistent (o : Option String) :
    (match truthyOpt o with | none => true | some v => o == some v) = true := by
  unfold truthyOpt
  cases o with
  | none => rfl
  | some s =>
      by_cases hs : s = "" <;> simp [hs]

theorem matchesFilter_applySet (e : CanonicalEvent) (now : Nat) (d : EventDoc) :
    matchesFilter (filterFor e) (applySet e now d) = true := by
  have hr := truthyOpt_consistent e.relatesToEventId
  unfold filterFor filterNoId matchesFilter applySet
  cases h : e.eventId <;> simp_all <;> split <;> simp_all <;>
    (try split) <;> simp_all

theorem matchesFilter_insertDoc (e : CanonicalEvent) (now : Nat) :
    matchesFilter (filterFor e) (insertDoc e now) = true := by
  have hr := truthyOpt_consistent e.relatesToEventId
  unfold filterFor filterNoId matchesFilter insertDoc
  cases h : e.eventId <;> simp_all <;> split <;> simp_all <;>
    (try split) <;> simp_all

theorem upsertOne_no_match (f : EventFilter) (e : CanonicalEvent) (now : Nat)
    (l : List EventDoc) (h : ∀ d ∈ l, matchesFilter f d = false) :
    upsertOne f e now l = l ++ [insertDoc e now] := by
  induction l with
  | nil => rfl
  | cons d ds ih =>
      have hd := h d (by simp)
      simp only [upsertOne, hd]
      simp only [Bool.false_eq_true, if_false, List.cons_append, List.cons.injEq,
        true_and]
      exact ih (fun x hx => h x (by simp [hx]))

theorem upsertOne_match_last (f : EventFilter) (e : CanonicalEvent) (now : Nat)
    (l : List EventDoc) (d0 : EventDoc)
    (h : ∀ d ∈ l, matchesFilter f d = false)
    (hd0 : matchesFilter f d0 = true) :
    upsertOne f e now (l ++ [d0]) = l ++ [applySet e now d0] := by
  induction l with
  | nil => simp [upsertOne, hd0]
  | cons d ds ih =>
      have hd := h d (by simp)
      simp only [List.cons_append, upsertOne, hd]
      simp only [Bool.false_eq_true, if_false, List.cons.injEq, true_and]
      exact ih (fun x hx => h x (by simp [hx]))

/-- C1: upserting two canonical events that share the same identity filter
(the same logical event, possibly with different content) into a store with
no pre-existing record for that identity leaves exactly one matching record:
its mutable fields come from the second call, `updatedAt` is the second
call's time, and `ingestedAt` keeps the first call's time. -/
theorem insertCanonicalEvent_upsert_idempotent
    (store : List EventDoc) (e1 e2 : CanonicalEvent) (t1 t2 : Nat)
    (hf : filterFor e1 = filterFor e2)
    (h0 : ∀ d ∈ store, matchesFilter (filterFor e1) d = false) :
    insertCanonicalEvent (insertCanonicalEvent store e1 t1) e2 t2 =
      store ++ [applySet e2 t2 (insertDoc e1 t1)] ∧
    countMatching (filterFor e2)
      (insertCanonicalEvent (insertCanonicalEvent store e1 t1) e2 t2) = 1 ∧
    (applySet e2 t2 (insertDoc e1 t1)).ingestedAt = t1 ∧
    (applySet e2 t2 (insertDoc e1 t1)).updatedAt = t2 ∧
    (applySet e2 t2 (insertDoc e1 t1)).content = e2.content := by
  have h0' : ∀ d ∈ store, matchesFilter (filterFor e2) d = false := by
    intro d hd; rw [← hf]; exact h0 d hd
  have hstep1 : insertCanonicalEvent store e1 t1 = store ++ [insertDoc e1 t1] :=
    upsertOne_no_match _ _ _ _ h0
  have hmatch : matchesFilter (filterFor e2) (insertDoc e1 t1) = true := by
    rw [← hf]; exact matchesFilter_insertDoc e1 t1
  have hstep2 : insertCanonicalEvent (insertCanonicalEvent store e1 t1) e2 t2 =
      store ++ [applySet e2 t2 (insertDoc e1 t1)] := by
    rw [hstep1]
    exact upsertOne_match_last _ _ _ _ _ h0' hmatch
  refine ⟨hstep2, ?_, rfl, rfl, rfl⟩
  rw [hstep2]
  unfold countMatching
  rw [List.filter_append]
  have hnil : store.filter (fun d => matchesFilter (filterFor e2) d) = [] := by
    apply List.filter_eq_nil_iff.mpr
    intro d hd
    simp [h0' d hd]
  rw [hnil]
  simp [matchesFilter_applySet e2 t2 (insertDoc e1 t1), hf]

/-- Sample message event used to exercise the store writer. -/
def sampleMsgEvent (body : String) : CanonicalEvent :=
  { source := "messenger", arcUserId := "@acct:server", eventId := some "$E1",
    type := "message", roomId := "!R:server", senderId := "@A:server",
    timestamp := 1000, encrypted := false, relatesToEventId := none,
    content := { body := some body, msgtype := some "m.text" } }

theorem insertCanonicalEvent_upsert_idempotent_witness :
    insertCanonicalEvent
        (insertCanonicalEvent [] (sampleMsgEvent "hi") 50)
        (sampleMsgEvent "hi!") 70 =
      [applySet (sampleMsgEvent "hi!") 70 (insertDoc (sampleMsgEvent "hi") 50)] ∧
    countMatching (filterFor (sampleMsgEvent "hi!"))
      (insertCanonicalEvent
        (insertCanonicalEvent [] (sampleMsgEvent "hi") 50)
        (sampleMsgEvent "hi!") 70) = 1 ∧
    (applySet (sampleMsgEvent "hi!") 70 (insertDoc (sampleMsgEvent "hi") 50)).ingestedAt = 50 ∧
    (applySet (sampleMsgEvent "hi!") 70 (insertDoc (sampleMsgEvent "hi") 50)).updatedAt = 70 ∧
    (applySet (sampleMsgEvent "hi!") 70 (insertDoc (sampleMsgEvent "hi") 50)).content =
      (sampleMsgEvent "hi!").content := by
  have h := insertCanonicalEvent_upsert_idempotent []
    (sampleMsgEvent "hi") (sampleMsgEvent "hi!") 50 70 (by decide)
    (by intro d hd; simp at hd)
  simpa using h

/-! ## SAS verification session manager (`src/matrix-app.ts`)

The module-level mutable state of `matrix-app.ts` (`activeVerifier`,
`activeSas`, `pendingVerifierDecision`, `boundTxns`, `begunHandshakeTxns`,
`pendingVerificationRequests`) together with observation logs: `bindLog`
records each execution of the body of `bindVerifierEventHandlers` (handler
attachment), `driveLog` each handshake-driving `verifier.verify()` call,
`acceptCalls` each `req.accept()`, `queuedConfirmLog` each application of a
queued confirm inside the `show_sas` handler.  `changeListeners` tracks the
requests that got a `change` listener attached, `everBound` the verifiers
that ever received `done`/`cancel`/`show_sas` handlers (listeners are never
detached, so those callbacks can still fire after cleanup). -/

/-- An operator decision queued from the readline interface. -/
inductive Decision where
  | confirm
  | cancel
  deriving DecidableEq, Repr

/-- Mutable verification state of `matrix-app.ts` plus observation logs. -/
structure VerifState where
  activeVerifier : Option String := none
  activeSas : Option String := none
  pendingVerifierDecision : Option Decision := none
  boundTxns : List String := []
  begunHandshakeTxns : List String := []
  pendingVerificationRequests : List String := []
  changeListeners : List String := []
  everBound : List String := []
  acceptCalls : List String := []
  bindLog : List String := []
  driveLog : List String := []
  queuedConfirmLog : List String := []
  deriving DecidableEq, Repr

/-- `Set.add` / `Map.set`: membership-idempotent insertion. -/
def addTxn (l : List String) (t : String) : List String :=
  if t ∈ l then l else t :: l

/-- `Set.delete` / `Map.delete`: removes the key entirely. -/
def removeTxn (l : List String) (t : String) : List String :=
  l.filter (fun x => x ≠ t)

/-- `bindVerifierEventHandlers(verifier, txnId)`: guarded by `boundTxns`,
attaches the handlers, records the active verifier, then issues the single
handshake-driving `verify()` call guarded by `begunHandshakeTxns`. -/
def bindVerifier (t : String) (s : VerifState) : VerifState :=
  if t ∈ s.boundTxns then s
  else
    let s1 := { s with
      boundTxns := t :: s.boundTxns,
      activeVerifier := some t,
      everBound := addTxn s.everBound t,
      bindLog := t :: s.bindLog }
    if t ∈ s1.begunHandshakeTxns then s1
    else { s1 with
      begunHandshakeTxns := t :: s1.begunHandshakeTxns,
      driveLog := t :: s1.driveLog }

/-- The `cleanup()` closure shared by the `done` and `cancel` handlers. -/
def cleanupTxn (t : String) (s : VerifState) : VerifState :=
  { s with
    activeVerifier := none,
    activeSas := none,
    boundTxns := removeTxn s.boundTxns t,
    begunHandshakeTxns := removeTxn s.begunHandshakeTxns t,
    pendingVerificationRequests := removeTxn s.pendingVerificationRequests t,
    pendingVerifierDecision := none }

/-- Whitespace test used by the input normalization. -/
def isWsChar (c : Char) : Bool :=
  c == ' ' || c == '\t' || c == '\n' || c == '\r'

/-- Trim the surrounding whitespace of a character list. -/
def trimChars (l : List Char) : List Char :=
  ((l.dropWhile isWsChar).reverse.dropWhile isWsChar).reverse

/-- The readline handler's input normalization
`(line || "").trim().toLowerCase()`. -/
def normalizeLine (raw : String) : String :=
  String.mk ((trimChars raw.data).map Char.toLower)

/-- External signals handled by the verification session manager.
`hasVerifier` tells whether `req.verifier` is populated when the signal
fires (environment-controlled). -/
inductive Sig where
  | reqArrive (t : String)
  | reqChange (t : String) (hasVerifier : Bool)
  | cryptoStart (t : String)
  | toDeviceStart (t : String) (hasVerifier : Bool)
  | doneSig (t : String)
  | cancelSig (t : String)
  | lineInput (raw : String)
  | showSas (t : String)
  deriving DecidableEq, Repr

/-- One handler dispatch of `matrix-app.ts`:
the `crypto.verification.request` handler (ignore when a verifier is
active, else store, accept and attach a `change` listener); the `change`
listener (bind when the verifier appeared and the txn is unbound); the
`crypto.verification.start` handler; the to-device
`m.key.verification.start` handler (requires a stored request); the
`done`/`cancel` handlers (cleanup, only attachable once bound); the
readline `line` handler; and the `show_sas` handler (queued confirm is
cleared, then `confirm()`/`verify()` are issued). -/
def stepSig (g : Sig) (s : VerifState) : VerifState :=
  match g with
  | .reqArrive t =>
      if s.activeVerifier.isSome then s
      else { s with
        pendingVerificationRequests := addTxn s.pendingVerificationRequests t,
        acceptCalls := t :: s.acceptCalls,
        changeListeners := addTxn s.changeListeners t }
  | .reqChange t hasV =>
      if t ∈ s.changeListeners then
        if hasV then
          if t ∈ s.boundTxns then s else bindVerifier t s
        else s
      else s
  | .cryptoStart t =>
      if t ∈ s.boundTxns then s else bindVerifier t s
  | .toDeviceStart t hasV =>
      if t ∈ s.boundTxns then s
      else if t ∈ s.pendingVerificationRequests then
        if hasV then bindVerifier t s else s
      else s
  | .doneSig t => if t ∈ s.everBound then cleanupTxn t s else s
  | .cancelSig t => if t ∈ s.everBound then cleanupTxn t s else s
  | .lineInput raw =>
      let text := normalizeLine raw
      match s.activeVerifier with
      | none =>
          if text == "y" || text == "yes" then
            { s with pendingVerifierDecision := some Decision.confirm }
          else s
      | some _ =>
          if text == "y" || text == "yes" then { s with activeSas := none }
          else s
  | .showSas t =>
      if t ∈ s.everBound then
        if s.pendingVerifierDecision == some Decision.confirm then
          { s with
            activeSas := some t,
            pendingVerifierDecision := none,
            queuedConfirmLog := t :: s.queuedConfirmLog }
        else { s with activeSas := some t }
      else s

/-- Run a list of signals from a starting state. -/
def runSigs (s : VerifState) (tr : List Sig) : VerifState :=
  tr.foldl (fun s g => stepSig g s) s

/-- The initial state at module load. -/
def vInit : VerifState := {}

/-! ### Bind-once / drive-once (C2) -/

/-- Invariant tying the bind/drive logs of a transaction to the guard-set
memberships, in the absence of a cleanup for that transaction. -/
def BindInv (t : String) (s : VerifState) : Prop :=
  s.bindLog.count t = (if t ∈ s.boundTxns then 1 else 0) ∧
  s.driveLog.count t = s.bindLog.count t ∧
  (t ∈ s.boundTxns ↔ t ∈ s.begunHandshakeTxns)

theorem bindInv_init (t : String) : BindInv t vInit := by
  simp [BindInv, vInit]

theorem mem_removeTxn_iff (t u : String) (l : List String) :
    t ∈ removeTxn l u ↔ t ∈ l ∧ t ≠ u := by
  simp [removeTxn, List.mem_filter]

theorem bindInv_bindVerifier (t u : String) (s : VerifState)
    (h : BindInv t s) : BindInv t (bindVerifier u s) := by
  obtain ⟨h1, h2, h3⟩ := h
  unfold bindVerifier
  by_cases hu : u ∈ s.boundTxns
  · simpa [hu] using ⟨h1, h2, h3⟩
  · by_cases hut : u = t
    · subst hut
      have hb : u ∉ s.begunHandshakeTxns := fun hbg => hu (h3.mpr hbg)
      simp only [hu, if_false, hb]
      simp_all [BindInv, List.count_cons]
    · by_cases hub : u ∈ s.begunHandshakeTxns <;>
        simp_all [BindInv, List.count_cons, hut, Ne.symm hut]

theorem bindInv_cleanup (t u : String) (s : VerifState) (hne : t ≠ u)
    (h : BindInv t s) : BindInv t (cleanupTxn u s) := by
  obtain ⟨h1, h2, h3⟩ := h
  unfold cleanupTxn
  refine ⟨?_, h2, ?_⟩
  · simpa [mem_removeTxn_iff, hne] using h1
  · simpa [mem_removeTxn_iff, hne] using h3

theorem bindInv_of_fields (t : String) (s s' : VerifState)
    (hb : s'.boundTxns = s.boundTxns)
    (hg : s'.begunHandshakeTxns = s.begunHandshakeTxns)
    (hl : s'.bindLog = s.bindLog)
    (hdr : s'.driveLog = s.driveLog)
    (h : BindInv t s) : BindInv t s' := by
  unfold BindInv at h ⊢
  rw [hb, hg, hl, hdr]
  exact h

theorem bindInv_step (t : String) (g : Sig) (s : VerifState)
    (h : BindInv t s) (hd : g ≠ Sig.doneSig t) (hc : g ≠ Sig.cancelSig t) :
    BindInv t (stepSig g s) := by
  cases g with
  | reqArrive u =>
      refine bindInv_of_fields t s _ ?_ ?_ ?_ ?_ h <;>
        (simp only [stepSig]; split <;> rfl)
  | reqChange u hasV =>
      simp only [stepSig]
      by_cases hl : u ∈ s.changeListeners
      · by_cases hv : hasV
        · by_cases hb : u ∈ s.boundTxns
          · simp only [hl, hv, hb, if_true]; exact h
          · simp only [hl, hv, hb, if_true, if_false]
            exact bindInv_bindVerifier t u s h
        · simp only [hl, hv, if_true, Bool.false_eq_true, if_false]; exact h
      · simp only [hl, if_false]; exact h
  | cryptoStart u =>
      simp only [stepSig]
      by_cases hb : u ∈ s.boundTxns
      · simp only [hb, if_true]; exact h
      · simp only [hb, if_false]; exact bindInv_bindVerifier t u s h
  | toDeviceStart u hasV =>
      simp only [stepSig]
      by_cases hb : u ∈ s.boundTxns
      · simp only [hb, if_true]; exact h
      · by_cases hp : u ∈ s.pendingVerificationRequests
        · by_cases hv : hasV
          · simp only [hb, hp, hv, if_true, if_false]
            exact bindInv_bindVerifier t u s h
          · simp only [hb, hp, hv, if_true, if_false, Bool.false_eq_true]
            exact h
        · simp only [hb, hp, if_false]; exact h
  | doneSig u =>
      have hut : t ≠ u := by
        intro he; exact hd (by rw [he])
      simp only [stepSig]
      by_cases hbd : u ∈ s.everBound
      · simp only [hbd, if_true]; exact bindInv_cleanup t u s hut h
      · simp only [hbd, if_false]; exact h
  | cancelSig u =>
      have hut : t ≠ u := by
        intro he; exact hc (by rw [he])
      simp only [stepSig]
      by_cases hbd : u ∈ s.everBound
      · simp only [hbd, if_true]; exact bindInv_cleanup t u s hut h
      · simp only [hbd, if_false]; exact h
  | lineInput raw =>
      refine bindInv_of_fields t s _ ?_ ?_ ?_ ?_ h <;>
        (simp only [stepSig]; split <;> (try split) <;> rfl)
  | showSas u =>
      refine bindInv_of_fields t s _ ?_ ?_ ?_ ?_ h <;>
        (simp only [stepSig]; split <;> (try split) <;> rfl)

theorem bound_bindVerifier (t u : String) (s : VerifState)
    (hb : t ∈ s.boundTxns) : t ∈ (bindVerifier u s).boundTxns := by
  unfold bindVerifier
  by_cases hu : u ∈ s.boundTxns
  · simpa [hu] using hb
  · by_cases hub : u ∈ s.begunHandshakeTxns <;> simp_all

theorem bound_mono_step (t : String) (g : Sig) (s : VerifState)
    (hb : t ∈ s.boundTxns) (hd : g ≠ Sig.doneSig t) (hc : g ≠ Sig.cancelSig t) :
    t ∈ (stepSig g s).boundTxns := by
  cases g with
  | reqArrive u =>
      have hfix : (stepSig (Sig.reqArrive u) s).boundTxns = s.boundTxns := by
        simp only [stepSig]; split <;> rfl
      rw [hfix]; exact hb
  | reqChange u hasV =>
      simp only [stepSig]
      by_cases hl : u ∈ s.changeListeners
      · by_cases hv : hasV
        · by_cases hbu : u ∈ s.boundTxns
          · simp only [hl, hv, hbu, if_true]; exact hb
          · simp only [hl, hv, hbu, if_true, if_false]
            exact bound_bindVerifier t u s hb
        · simp only [hl, hv, if_true, Bool.false_eq_true, if_false]; exact hb
      · simp only [hl, if_false]; exact hb
  | cryptoStart u =>
      simp only [stepSig]
      by_cases hbu : u ∈ s.boundTxns
      · simp only [hbu, if_true]; exact hb
      · simp only [hbu, if_false]; exact bound_bindVerifier t u s hb
  | toDeviceStart u hasV =>
      simp only [stepSig]
      by_cases hbu : u ∈ s.boundTxns
      · simp only [hbu, if_true]; exact hb
      · by_cases hp : u ∈ s.pendingVerificationRequests
        · by_cases hv : hasV
          · simp only [hbu, hp, hv, if_true, if_false]
            exact bound_bindVerifier t u s hb
          · simp only [hbu, hp, hv, if_true, if_false, Bool.false_eq_true]
            exact hb
        · simp only [hbu, hp, if_false]; exact hb
  | doneSig u =>
      have hut : t ≠ u := by
        intro he; exact hd (by rw [he])
      simp only [stepSig]
      by_cases hbd : u ∈ s.everBound
      · simp only [hbd, if_true, cleanupTxn]
        exact (mem_removeTxn_iff t u s.boundTxns).mpr ⟨hb, hut⟩
      · simp only [hbd, if_false]; exact hb
  | cancelSig u =>
      have hut : t ≠ u := by
        intro he; exact hc (by rw [he])
      simp only [stepSig]
      by_cases hbd : u ∈ s.everBound
      · simp only [hbd, if_true, cleanupTxn]
        exact (mem_removeTxn_iff t u s.boundTxns).mpr ⟨hb, hut⟩
      · simp only [hbd, if_false]; exact hb
  | lineInput raw =>
      have hfix : (stepSig (Sig.lineInput raw) s).boundTxns = s.boundTxns := by
        simp only [stepSig]; split <;> (try split) <;> rfl
      rw [hfix]; exact hb
  | showSas u =>
      have hfix : (stepSig (Sig.showSas u) s).boundTxns = s.boundTxns := by
        simp only [stepSig]; split <;> (try split) <;> rfl
      rw [hfix]; exact hb

theorem runSigs_counts_of_bound (t : String) (tr : List Sig) (s : VerifState)
    (h : BindInv t s) (hb : t ∈ s.boundTxns)
    (hd : Sig.doneSig t ∉ tr) (hc : Sig.cancelSig t ∉ tr) :
    (runSigs s tr).bindLog.count t = 1 ∧
    (runSigs s tr).driveLog.count t = 1 := by
  induction tr generalizing s with
  | nil =>
      simp only [runSigs, List.foldl_nil]
      refine ⟨?_, ?_⟩
      · rw [h.1]; simp [hb]
      · rw [h.2.1, h.1]; simp [hb]
  | cons g gs ih =>
      have hd' : g ≠ Sig.doneSig t := fun he => hd (by simp [he])
      have hc' : g ≠ Sig.cancelSig t := fun he => hc (by simp [he])
      have hdgs : Sig.doneSig t ∉ gs := fun hm => hd (by simp [hm])
      have hcgs : Sig.cancelSig t ∉ gs := fun hm => hc (by simp [hm])
      simp only [runSigs, List.foldl_cons] at ih ⊢
      exact ih (stepSig g s) (bindInv_step t g s h hd' hc')
        (bound_mono_step t g s hb hd' hc') hdgs hcgs

theorem mem_bound_after_cryptoStart (t : String) (s : VerifState) :
    t ∈ (stepSig (Sig.cryptoStart t) s).boundTxns := by
  simp only [stepSig]; unfold bindVerifier
  by_cases hb : t ∈ s.boundTxns
  · simpa [hb] using hb
  · by_cases hbg : t ∈ s.begunHandshakeTxns <;> simp [hb, hbg]

/-- C2: for any interleaving of the three verifier-availability signals
(`change` on the stored request, `crypto.verification.start`, to-device
`m.key.verification.start`) for transaction `t`, fired any number of times
in any order before completion or cancellation of `t`, the handler body of
`bindVerifierEventHandlers` runs exactly once (guarded by `boundTxns`) and
the handshake-driving `verify()` call is issued exactly once (guarded by
the distinct set `begunHandshakeTxns`). -/
theorem verification_bind_once_drive_once (tr : List Sig) (t : String)
    (hd : Sig.doneSig t ∉ tr) (hc : Sig.cancelSig t ∉ tr)
    (hs : Sig.cryptoStart t ∈ tr) :
    (runSigs vInit tr).bindLog.count t = 1 ∧
    (runSigs vInit tr).driveLog.count t = 1 := by
  have aux : ∀ (l : List Sig) (s : VerifState), BindInv t s →
      Sig.doneSig t ∉ l → Sig.cancelSig t ∉ l → Sig.cryptoStart t ∈ l →
      (runSigs s l).bindLog.count t = 1 ∧
      (runSigs s l).driveLog.count t = 1 := by
    intro l
    induction l with
    | nil => intro s _ _ _ hmem; cases hmem
    | cons g gs ih =>
        intro s hInv hdl hcl hsl
        have hd' : g ≠ Sig.doneSig t := fun he => hdl (by simp [he])
        have hc' : g ≠ Sig.cancelSig t := fun he => hcl (by simp [he])
        have hdgs : Sig.doneSig t ∉ gs := fun hm => hdl (by simp [hm])
        have hcgs : Sig.cancelSig t ∉ gs := fun hm => hcl (by simp [hm])
        by_cases hg : g = Sig.cryptoStart t
        · subst hg
          exact runSigs_counts_of_bound t gs (stepSig (Sig.cryptoStart t) s)
            (bindInv_step t _ s hInv hd' hc')
            (mem_bound_after_cryptoStart t s) hdgs hcgs
        · have hs' : Sig.cryptoStart t ∈ gs := by
            rcases List.mem_cons.mp hsl with he | hm
            · exact absurd he.symm hg
            · exact hm
          exact ih (stepSig g s) (bindInv_step t g s hInv hd' hc') hdgs hcgs hs'
  exact aux tr vInit (bindInv_init t) hd hc hs

theorem verification_bind_once_drive_once_witness :
    Sig.doneSig "txn" ∉ ([Sig.reqArrive "txn", Sig.cryptoStart "txn",
        Sig.reqChange "txn" true, Sig.toDeviceStart "txn" true,
        Sig.cryptoStart "txn"] : List Sig) ∧
    (runSigs vInit [Sig.reqArrive "txn", Sig.cryptoStart "txn",
        Sig.reqChange "txn" true, Sig.toDeviceStart "txn" true,
        Sig.cryptoStart "txn"]).bindLog.count "txn" = 1 ∧
    (runSigs vInit [Sig.reqArrive "txn", Sig.cryptoStart "txn",
        Sig.reqChange "txn" true, Sig.toDeviceStart "txn" true,
        Sig.cryptoStart "txn"]).driveLog.count "txn" = 1 :=
  ⟨by decide,
   verification_bind_once_drive_once _ "txn" (by decide) (by decide) (by decide)⟩

/-! ### Single concurrent verification (C3) -/

/-- Trace in which two verification requests both arrive before either
verifier is bound (the busy-check consults `activeVerifier`, which is only
set at bind time), after which both verifiers appear. -/
def twoRequestTrace : List Sig :=
  [Sig.reqArrive "txn1", Sig.reqArrive "txn2",
   Sig.reqChange "txn1" true, Sig.reqChange "txn2" true]

/-- C3 counterexample: after `twoRequestTrace` both transactions are in the
handshaking state (`begunHandshakeTxns`), refuting the claim that at most
one verification session is handshaking at any time.  The second request
was not ignored: it was stored and accepted because `activeVerifier` was
still null when it arrived. -/
theorem second_request_reaches_handshaking_counterexample :
    "txn1" ∈ (runSigs vInit twoRequestTrace).begunHandshakeTxns ∧
    "txn2" ∈ (runSigs vInit twoRequestTrace).begunHandshakeTxns ∧
    "txn2" ∈ (runSigs vInit twoRequestTrace).acceptCalls ∧
    ¬ (runSigs vInit twoRequestTrace).begunHandshakeTxns.length ≤ 1 := by
  decide

/-- C3 amended: whenever an inbound verification request arrives while a
verifier is active (bound), the request is ignored outright — not stored,
not accepted, and no state changes at all. -/
theorem request_ignored_while_verifier_active (s : VerifState) (t : String)
    (h : s.activeVerifier.isSome) :
    stepSig (Sig.reqArrive t) s = s := by
  simp only [stepSig]
  simp [h]

theorem request_ignored_while_verifier_active_witness :
    (runSigs vInit [Sig.reqArrive "txn1",
        Sig.reqChange "txn1" true]).activeVerifier.isSome = true ∧
    stepSig (Sig.reqArrive "txn2")
        (runSigs vInit [Sig.reqArrive "txn1", Sig.reqChange "txn1" true]) =
      runSigs vInit [Sig.reqArrive "txn1", Sig.reqChange "txn1" true] :=
  ⟨by decide,
   request_ignored_while_verifier_active _ "txn2" (by decide)⟩

/-! ### Dead-transaction immunity (C4) -/

/-- Trace that completes transaction `txn` (cleanup runs) and then replays
`crypto.verification.start` for the same transaction id. -/
def deadReplayTrace : List Sig :=
  [Sig.reqArrive "txn", Sig.reqChange "txn" true, Sig.doneSig "txn",
   Sig.cryptoStart "txn"]

/-- C4 counterexample: replaying `crypto.verification.start` for a
completed transaction re-binds and re-drives it — `cleanup()` deletes the
guard-set memberships, which makes the transaction id eligible again
instead of dead. -/
theorem dead_txn_replay_rebinds_counterexample :
    (runSigs vInit deadReplayTrace).bindLog.count "txn" = 2 ∧
    (runSigs vInit deadReplayTrace).driveLog.count "txn" = 2 := by
  decide

/-- C4 amended: completion/cancellation purges all per-transaction state
(guard sets, stored request, active verifier), and replaying the to-device
`m.key.verification.start` for a transaction with no stored request is a
no-op; replay immunity does not extend to `crypto.verification.start` or
to a `change` signal carrying a verifier. -/
theorem dead_txn_todevice_immunity (s : VerifState) (t : String)
    (hasV : Bool) :
    (t ∈ s.everBound →
      t ∉ (stepSig (Sig.doneSig t) s).boundTxns ∧
      t ∉ (stepSig (Sig.doneSig t) s).begunHandshakeTxns ∧
      t ∉ (stepSig (Sig.doneSig t) s).pendingVerificationRequests ∧
      (stepSig (Sig.doneSig t) s).activeVerifier = none) ∧
    (t ∉ s.pendingVerificationRequests →
      stepSig (Sig.toDeviceStart t hasV) s = s) := by
  constructor
  · intro hb
    simp only [stepSig]; unfold cleanupTxn
    simp [hb, mem_removeTxn_iff]
  · intro hp
    simp only [stepSig]
    by_cases hbnd : t ∈ s.boundTxns
    · simp [hbnd]
    · simp [hbnd, hp]

/-- State of a completed verification for transaction `txn`. -/
def completedTxnState : VerifState :=
  runSigs vInit [Sig.reqArrive "txn", Sig.reqChange "txn" true,
    Sig.doneSig "txn"]

theorem dead_txn_todevice_immunity_witness :
    ("txn" ∉ (stepSig (Sig.doneSig "txn") completedTxnState).boundTxns ∧
     "txn" ∉ (stepSig (Sig.doneSig "txn") completedTxnState).begunHandshakeTxns ∧
     "txn" ∉ (stepSig (Sig.doneSig "txn")
        completedTxnState).pendingVerificationRequests ∧
     (stepSig (Sig.doneSig "txn") completedTxnState).activeVerifier = none) ∧
    stepSig (Sig.toDeviceStart "txn" true) completedTxnState =
      completedTxnState :=
  ⟨(dead_txn_todevice_immunity completedTxnState "txn" true).1 (by decide),
   (dead_txn_todevice_immunity completedTxnState "txn" true).2 (by decide)⟩

/-! ### Operator decision queue (C10) -/

theorem pend_bindVerifier (u : String) (s : VerifState) :
    (bindVerifier u s).pendingVerifierDecision = s.pendingVerifierDecision := by
  unfold bindVerifier
  split
  · rfl
  · dsimp only
    split <;> rfl

theorem noCancel_step (g : Sig) (s : VerifState)
    (h : s.pendingVerifierDecision ≠ some Decision.cancel) :
    (stepSig g s).pendingVerifierDecision ≠ some Decision.cancel := by
  cases g with
  | reqArrive u =>
      simp only [stepSig]; split <;> exact h
  | reqChange u hasV =>
      simp only [stepSig]
      split
      · split
        · split
          · exact h
          · rw [pend_bindVerifier]; exact h
        · exact h
      · exact h
  | cryptoStart u =>
      simp only [stepSig]
      split
      · exact h
      · rw [pend_bindVerifier]; exact h
  | toDeviceStart u hasV =>
      simp only [stepSig]
      split
      · exact h
      · split
        · split
          · rw [pend_bindVerifier]; exact h
          · exact h
        · exact h
  | doneSig u =>
      simp only [stepSig]
      split
      · simp [cleanupTxn]
      · exact h
  | cancelSig u =>
      simp only [stepSig]
      split
      · simp [cleanupTxn]
      · exact h
  | lineInput raw =>
      simp only [stepSig]
      split <;> split <;> simp_all
  | showSas u =>
      simp only [stepSig]
      split
      · split <;> simp_all
      · exact h

theorem noCancel_run (tr : List Sig) :
    (runSigs vInit tr).pendingVerifierDecision ≠ some Decision.cancel := by
  have aux : ∀ (l : List Sig) (s : VerifState),
      s.pendingVerifierDecision ≠ some Decision.cancel →
      (runSigs s l).pendingVerifierDecision ≠ some Decision.cancel := by
    intro l
    induction l with
    | nil => intro s h; exact h
    | cons g gs ih =>
        intro s h
        simp only [runSigs, List.foldl_cons] at ih ⊢
        exact ih (stepSig g s) (noCancel_step g s h)
  exact aux tr vInit (by simp [vInit])

/-- C10: the pending-decision slot can never hold a cancel (operator 'n'
with no active verifier is discarded, never queued; all other writes are
`confirm` or `null`); 'y' with no active verifier queues a confirm; and a
queued confirm is applied exactly once by the `show_sas` handler, which
clears the slot when it applies it and applies nothing when the slot is
empty. -/
theorem pending_decision_confirm_only (tr : List Sig) (s : VerifState)
    (t : String) :
    (runSigs vInit tr).pendingVerifierDecision ≠ some Decision.cancel ∧
    (s.activeVerifier = none →
      stepSig (Sig.lineInput "n") s = s ∧
      stepSig (Sig.lineInput "no") s = s ∧
      (stepSig (Sig.lineInput "y") s).pendingVerifierDecision =
        some Decision.confirm) ∧
    (t ∈ s.everBound →
      s.pendingVerifierDecision = some Decision.confirm →
      (stepSig (Sig.showSas t) s).pendingVerifierDecision = none ∧
      (stepSig (Sig.showSas t) s).queuedConfirmLog =
        t :: s.queuedConfirmLog) ∧
    (t ∈ s.everBound →
      s.pendingVerifierDecision = none →
      (stepSig (Sig.showSas t) s).queuedConfirmLog = s.queuedConfirmLog) := by
  refine ⟨noCancel_run tr, ?_, ?_, ?_⟩
  · intro ha
    have hn : ((normalizeLine "n" == "y") || (normalizeLine "n" == "yes")) = false := by
      decide
    have hno : ((normalizeLine "no" == "y") || (normalizeLine "no" == "yes")) = false := by
      decide
    have hy : ((normalizeLine "y" == "y") || (normalizeLine "y" == "yes")) = true := by
      decide
    refine ⟨?_, ?_, ?_⟩
    · simp only [stepSig, ha]
      simp only [hn] at *
      simp
    · simp only [stepSig, ha]
      simp only [hno] at *
      simp
    · simp only [stepSig, ha]
      simp only [hy] at *
      simp
  · intro hbd hp
    simp only [stepSig, hbd, if_true, hp]
    simp
  · intro hbd hp
    simp only [stepSig, hbd, if_true, hp]
    simp

/-- State with a completed verification for `txn` (so `activeVerifier` is
null and `"txn"` is in `everBound`) and a queued confirm. -/
def queuedConfirmState : VerifState :=
  runSigs vInit [Sig.reqArrive "txn", Sig.reqChange "txn" true,
    Sig.doneSig "txn", Sig.lineInput "y"]

/-- Same state before the operator typed 'y' (empty decision slot). -/
def emptyDecisionState : VerifState :=
  runSigs vInit [Sig.reqArrive "txn", Sig.reqChange "txn" true,
    Sig.doneSig "txn"]

theorem pending_decision_confirm_only_witness :
    stepSig (Sig.lineInput "n") emptyDecisionState = emptyDecisionState ∧
    (stepSig (Sig.lineInput "y") emptyDecisionState).pendingVerifierDecision =
      some Decision.confirm ∧
    (stepSig (Sig.showSas "txn") queuedConfirmState).pendingVerifierDecision =
      none ∧
    (stepSig (Sig.showSas "txn") queuedConfirmState).queuedConfirmLog =
      "txn" :: queuedConfirmState.queuedConfirmLog ∧
    (stepSig (Sig.showSas "txn") emptyDecisionState).queuedConfirmLog =
      emptyDecisionState.queuedConfirmLog := by
  refine ⟨?_, ?_, ?_, ?_, ?_⟩
  · exact ((pending_decision_confirm_only [] emptyDecisionState "txn").2.1
      (by decide)).1
  · exact ((pending_decision_confirm_only [] emptyDecisionState "txn").2.1
      (by decide)).2.2
  · exact ((pending_decision_confirm_only [] queuedConfirmState "txn").2.2.1
      (by decide) (by decide)).1
  · exact ((pending_decision_confirm_only [] queuedConfirmState "txn").2.2.1
      (by decide) (by decide)).2
  · exact (pending_decision_confirm_only [] emptyDecisionState "txn").2.2.2
      (by decide) (by decide)

/-! ## Key-request de-duplication (C5, `tryRequestMissingKeys`) -/

/-- The 10-minute cooldown of `requestedKeySessions` entries. -/
def COOLDOWN_MS : Nat := 10 * 60 * 1000

/-- State of the key-request coordinator: the de-duplication entries with
their insertion times (each entry is removed again by a `setTimeout` after
`COOLDOWN_MS`), plus a log of the times at which a key request was issued. -/
structure KeyRequestState where
  requestedKeySessions : List (String × Nat) := []
  keyRequestLog : List Nat := []
  deriving DecidableEq, Repr

/-- Is a dedupe key present at time `now`?  An entry inserted at time `t0`
lives until its `setTimeout` fires at `t0 + COOLDOWN_MS`. -/
def sessionActiveAt (st : KeyRequestState) (k : String) (now : Nat) : Bool :=
  st.requestedKeySessions.any (fun p => p.1 == k && decide (now < p.2 + COOLDOWN_MS))

/-- Wire content of an undecryptable event as read by
`tryRequestMissingKeys` (`session_id`, `algorithm`, room id). -/
structure WireEvent where
  sessionId : Option String
  algorithm : Option String
  roomId : Option String
  deriving DecidableEq, Repr

/-- `tryRequestMissingKeys`: build the `${roomId}|${sessionId}` dedupe key
(JS truthiness: absent or empty fields yield none), skip when the key is
already active, abandon when `session_id`/`algorithm`/room id is missing,
otherwise issue the key request and register the dedupe key with a
10-minute expiry. -/
def tryRequestMissingKeys (st : KeyRequestState) (ev : WireEvent)
    (now : Nat) : KeyRequestState :=
  let sessionId := truthyOpt ev.sessionId
  let algorithm := truthyOpt ev.algorithm
  let roomId := truthyOpt ev.roomId
  let dedupeKey : Option String :=
    match sessionId, roomId with
    | some sid, some rid => some (rid ++ "|" ++ sid)
    | _, _ => none
  match dedupeKey with
  | some k =>
      if sessionActiveAt st k now then st
      else
        if sessionId.isNone || algorithm.isNone || roomId.isNone then st
        else
          { requestedKeySessions := (k, now) :: st.requestedKeySessions,
            keyRequestLog := now :: st.keyRequestLog }
  | none => st

/-- C5: with complete wire metadata for the pair `(rid, sid)` and no live
cooldown entry, the first observation issues one key request and arms the
cooldown; a second observation of the same pair inside the 10-minute
window changes nothing (no new request); an observation after the window
has expired issues a request again. -/
theorem key_request_cooldown_dedup (st : KeyRequestState)
    (ev1 ev2 ev3 : WireEvent) (rid sid a1 a2 a3 : String) (t1 t2 t3 : Nat)
    (hr1 : ev1.roomId = some rid) (hs1 : ev1.sessionId = some sid)
    (ha1 : ev1.algorithm = some a1)
    (hr2 : ev2.roomId = some rid) (hs2 : ev2.sessionId = some sid)
    (ha2 : ev2.algorithm = some a2)
    (hr3 : ev3.roomId = some rid) (hs3 : ev3.sessionId = some sid)
    (ha3 : ev3.algorithm = some a3)
    (hrne : rid ≠ "") (hsne : sid ≠ "") (ha1ne : a1 ≠ "")
    (ha2ne : a2 ≠ "") (ha3ne : a3 ≠ "")
    (hact1 : sessionActiveAt st (rid ++ "|" ++ sid) t1 = false)
    (hact3 : sessionActiveAt st (rid ++ "|" ++ sid) t3 = false)
    (h12 : t2 < t1 + COOLDOWN_MS) (h13 : t1 + COOLDOWN_MS ≤ t3) :
    tryRequestMissingKeys st ev1 t1 =
      { requestedKeySessions :=
          (rid ++ "|" ++ sid, t1) :: st.requestedKeySessions,
        keyRequestLog := t1 :: st.keyRequestLog } ∧
    tryRequestMissingKeys (tryRequestMissingKeys st ev1 t1) ev2 t2 =
      tryRequestMissingKeys st ev1 t1 ∧
    (tryRequestMissingKeys (tryRequestMissingKeys st ev1 t1) ev3 t3).keyRequestLog =
      t3 :: t1 :: st.keyRequestLog := by
  have hstep1 : tryRequestMissingKeys st ev1 t1 =
      { requestedKeySessions :=
          (rid ++ "|" ++ sid, t1) :: st.requestedKeySessions,
        keyRequestLog := t1 :: st.keyRequestLog } := by
    unfold tryRequestMissingKeys
    simp [hr1, hs1, ha1, truthyOpt, hrne, hsne, ha1ne, hact1]
  have hact2 : sessionActiveAt
      { requestedKeySessions := (rid ++ "|" ++ sid, t1) :: st.requestedKeySessions,
        keyRequestLog := t1 :: st.keyRequestLog } (rid ++ "|" ++ sid) t2 = true := by
    unfold sessionActiveAt
    simp [h12]
  have hstep2 : tryRequestMissingKeys (tryRequestMissingKeys st ev1 t1) ev2 t2 =
      tryRequestMissingKeys st ev1 t1 := by
    rw [hstep1]
    unfold tryRequestMissingKeys
    simp [hr2, hs2, ha2, truthyOpt, hrne, hsne, ha2ne, hact2]
  have hact3' : sessionActiveAt
      { requestedKeySessions := (rid ++ "|" ++ sid, t1) :: st.requestedKeySessions,
        keyRequestLog := t1 :: st.keyRequestLog } (rid ++ "|" ++ sid) t3 = false := by
    unfold sessionActiveAt
    unfold sessionActiveAt at hact3
    simp only [List.any_cons, Bool.or_eq_false_iff]
    constructor
    · simp [Nat.not_lt.mpr h13]
    · exact hact3
  have hstep3 : (tryRequestMissingKeys (tryRequestMissingKeys st ev1 t1)
      ev3 t3).keyRequestLog = t3 :: t1 :: st.keyRequestLog := by
    rw [hstep1]
    unfold tryRequestMissingKeys
    simp [hr3, hs3, ha3, truthyOpt, hrne, hsne, ha3ne, hact3']
  exact ⟨hstep1, hstep2, hstep3⟩

theorem key_request_cooldown_dedup_witness :
    tryRequestMissingKeys {} ⟨some "sess", some "megolm.v1", some "!room"⟩ 0 =
      { requestedKeySessions := [("!room|sess", 0)], keyRequestLog := [0] } ∧
    tryRequestMissingKeys
        (tryRequestMissingKeys {} ⟨some "sess", some "megolm.v1", some "!room"⟩ 0)
        ⟨some "sess", some "megolm.v1", some "!room"⟩ 300000 =
      tryRequestMissingKeys {} ⟨some "sess", some "megolm.v1", some "!room"⟩ 0 ∧
    (tryRequestMissingKeys
        (tryRequestMissingKeys {} ⟨some "sess", some "megolm.v1", some "!room"⟩ 0)
        ⟨some "sess", some "megolm.v1", some "!room"⟩ 600000).keyRequestLog =
      [600000, 0] := by
  have h := key_request_cooldown_dedup {}
    ⟨some "sess", some "megolm.v1", some "!room"⟩
    ⟨some "sess", some "megolm.v1", some "!room"⟩
    ⟨some "sess", some "megolm.v1", some "!room"⟩
    "!room" "sess" "megolm.v1" "megolm.v1" "megolm.v1" 0 300000 600000
    rfl rfl rfl rfl rfl rfl rfl rfl rfl
    (by decide) (by decide) (by decide) (by decide) (by decide)
    (by decide) (by decide) (by decide) (by decide)
  simpa using h

/-! ## Canonical event mapper and ingestion handlers
(`src/handlers/matrix-events.ts`)

`MxEvent`/`MxRoom` model the matrix-js-sdk objects as the handlers read
them.  A single `content` stands for the raw/clear content after the
source's clear-content selection; `m.new_content` (edits) is kept as
`newContent`, and `m.relates_to` as `relates`.  `restFetch` models the
result of the REST `fetchRoomEvent` fallback in `resolveTargetEvent`
(environment-controlled, `none` when the fetch fails or finds nothing). -/

/-- JS `a || b` over optional strings (empty string is falsy). -/
def jsOr (a b : Option String) : Option String :=
  match truthyOpt a with
  | some s => some s
  | none => b

/-- JS `a || dflt` producing a string. -/
def jsOrD (a : Option String) (dflt : String) : String :=
  match truthyOpt a with
  | some s => s
  | none => dflt

/-- `m.relates_to` as read by the handlers: `m.in_reply_to.event_id`
(both spellings collapsed into one field), the plain `event_id` used by
edits/annotations, `rel_type`, and the reaction `key`. -/
structure RelatesTo where
  inReplyTo : Option String := none
  eventIdRef : Option String := none
  relType : Option String := none
  key : Option String := none
  deriving DecidableEq, Repr

/-- Body-bearing part of a Matrix event content. -/
structure MxInnerContent where
  body : Option String := none
  formattedBody : Option String := none
  msgtype : Option String := none
  deriving DecidableEq, Repr

/-- A Matrix event content: base fields, the `m.new_content` wrapper of
edits, and the relation metadata. -/
structure MxContent where
  base : MxInnerContent := {}
  newContent : Option MxInnerContent := none
  relates : Option RelatesTo := none
  deriving DecidableEq, Repr

/-- A Matrix timeline event as consumed by the handlers. -/
structure MxEvent where
  sender : Option String := none
  eventId : Option String := none
  evType : String := "m.room.message"
  content : MxContent := {}
  ts : Nat := 0
  decryptionFailure : Bool := false
  deriving DecidableEq, Repr

/-- A Matrix room: id, in-memory live timeline, canonical alias, the SDK's
DM guess, and the joined membership. -/
structure MxRoom where
  roomId : String
  timeline : List MxEvent := []
  canonicalAlias : Option String := none
  guessedDM : Option String := none
  joinedMembers : List String := []
  deriving DecidableEq, Repr

/-- `room.findEventById`: lookup in the in-memory live timeline. -/
def findEventById (room : MxRoom) (eid : String) : Option MxEvent :=
  room.timeline.find? (fun te => te.eventId == some eid)

/-- Relevant configuration (`src/config.ts`). -/
structure AppConfig where
  matrixUserId : String := ""
  arcUserId : String := ""
  publishReactions : Bool := true
  publishReceipts : Bool := false
  deriving DecidableEq, Repr

/-- `String.trim` over the character list. -/
def trimStr (s : String) : String :=
  String.mk (trimChars s.data)

/-- `sessionId()`: `(matrixUserId && matrixUserId.trim()) || arcUserId`. -/
def sessionIdOf (cfg : AppConfig) : String :=
  if cfg.matrixUserId = "" then cfg.arcUserId
  else if trimStr cfg.matrixUserId = "" then cfg.arcUserId
  else trimStr cfg.matrixUserId

/-- The local account id used as sender of synthetic receipts:
`(config.matrixUserId || "").trim() || this.sessionId()`. -/
def localAccountId (cfg : AppConfig) : String :=
  if trimStr cfg.matrixUserId = "" then sessionIdOf cfg
  else trimStr cfg.matrixUserId

/-- `getMessageType`: Matrix msgtype to legacy kind. -/
def getMessageType (msgtype : String) : String :=
  if msgtype = "m.text" then "chat"
  else if msgtype = "m.image" then "image"
  else if msgtype = "m.video" then "video"
  else if msgtype = "m.audio" then "audio"
  else if msgtype = "m.file" then "document"
  else if msgtype = "m.location" then "location"
  else "chat"

/-- `getMsgType`: legacy kind back to Matrix msgtype. -/
def getMsgType (kind : String) : String :=
  if kind = "chat" then "m.text"
  else if kind = "image" then "m.image"
  else if kind = "video" then "m.video"
  else if kind = "audio" then "m.audio"
  else if kind = "document" then "m.file"
  else if kind = "location" then "m.location"
  else "m.text"

/-- The reply-resolution step of `translateMatrixEvent` (lines 241-265):
look the referenced event up in the room's in-memory timeline; if found,
enrich with the target's sender, body and timestamp; otherwise produce a
bare reference carrying only the event id.  No other source is consulted. -/
def resolveReplyTo (room : MxRoom) (rid : String) : ReplyTo :=
  match findEventById room rid with
  | some target =>
      let targetBase := target.content.newContent.getD target.content.base
      { eventId := rid,
        senderId := truthyOpt target.sender,
        body := jsOr targetBase.body targetBase.formattedBody,
        timestamp := some target.ts }
  | none => { eventId := rid }

/-- Modelled from the spec (section 4.1 of the specification): the reply
resolution contract with a durable-store fallback — memory first, then a
best-effort lookup of the referenced id in the events store, and only then
a bare reference.  The durable-store tier is absent from the code's
reply-resolution path; this definition exists to compare the two. -/
def resolveReplyToSpec (room : MxRoom) (store : List EventDoc)
    (rid : String) : ReplyTo :=
  match findEventById room rid with
  | some target =>
      let targetBase := target.content.newContent.getD target.content.base
      { eventId := rid,
        senderId := truthyOpt target.sender,
        body := jsOr targetBase.body targetBase.formattedBody,
        timestamp := some target.ts }
  | none =>
      match store.find? (fun d => d.eventId == some rid) with
      | some d =>
          { eventId := rid, senderId := some d.senderId,
            body := d.content.body, timestamp := some d.timestamp }
      | none => { eventId := rid }

/-- A mapped message (`EnrichedMessage` in `matrix-events.ts`; the media
attachment fields are not modelled). -/
structure EnrichedMessage where
  id : String
  fromId : String
  toId : String
  recipientId : Option String := none
  msgKind : String
  body : String
  timestamp : Nat
  serialId : String
  roomId : String
  replyTo : Option ReplyTo := none
  deriving DecidableEq, Repr

/-- `translateMatrixEvent`: throws on a missing/empty sender or event id;
extracts the effective content (`m.new_content` fallback), resolves reply
metadata per `resolveReplyTo`, infers the legacy recipient (DM heuristics)
and selects the body with the `"[No content]"` placeholder fallback. -/
def translateMatrixEvent (cfg : AppConfig) (ev : MxEvent) (room : MxRoom) :
    Except String EnrichedMessage :=
  match truthyOpt ev.sender, truthyOpt ev.eventId with
  | some sender, some eventId =>
      let base := ev.content.base
      let eff := ev.content.newContent.getD base
      let replyEventId : Option String :=
        match ev.content.relates with
        | some r => jsOr r.inReplyTo r.eventIdRef
        | none => none
      let replyTo : Option ReplyTo :=
        match replyEventId with
        | some rid => some (resolveReplyTo room rid)
        | none => none
      let myUserId := trimStr cfg.matrixUserId
      let recipientId : String :=
        if sender = myUserId then (truthyOpt room.guessedDM).getD room.roomId
        else myUserId
      let toLegacy : String :=
        if room.canonicalAlias = none then
          let otherUserId : Option String :=
            match truthyOpt room.guessedDM with
            | some g => if g ≠ myUserId then some g else none
            | none => none
          if sender = myUserId then
            match otherUserId with
            | some o => o
            | none => room.roomId
          else myUserId
        else
          if room.joinedMembers.length = 2 ∧ myUserId ≠ "" then
            match room.joinedMembers.find?
                (fun u => (u != "") && (u != myUserId)) with
            | some o => if sender = myUserId then o else myUserId
            | none => room.roomId
          else room.roomId
      .ok { id := eventId, fromId := sender, toId := toLegacy,
            recipientId := some recipientId,
            msgKind := getMessageType (jsOrD (jsOr eff.msgtype base.msgtype) "m.text"),
            body := jsOrD (jsOr (jsOr eff.body eff.formattedBody) base.body)
              "[No content]",
            timestamp := ev.ts, serialId := eventId, roomId := room.roomId,
            replyTo := replyTo }
  | _, _ => .error "Invalid Matrix event: missing sender or event ID"

/-- `toCanonicalEventFromMessage`. -/
def toCanonicalEventFromMessage (cfg : AppConfig) (m : EnrichedMessage)
    (encrypted : Bool) : CanonicalEvent :=
  { source := "messenger", arcUserId := sessionIdOf cfg,
    eventId := some m.serialId, type := "message", roomId := m.roomId,
    senderId := m.fromId, timestamp := m.timestamp, encrypted := encrypted,
    relatesToEventId := none,
    content := { body := some m.body, msgtype := some (getMsgType m.msgKind),
                 replyTo := m.replyTo } }

/-- `toCanonicalEventFromReceipt`. -/
def toCanonicalEventFromReceipt (cfg : AppConfig) (targetEventId : String)
    (roomId : String) (reader : String) (ts : Nat) (ack : String) :
    CanonicalEvent :=
  { source := "messenger", arcUserId := sessionIdOf cfg, eventId := none,
    type := "receipt", roomId := roomId, senderId := reader, timestamp := ts,
    encrypted := false, relatesToEventId := some targetEventId,
    content := { ack := some ack, targetMessageId := some targetEventId } }

/-- `toCanonicalEventFromReaction`. -/
def toCanonicalEventFromReaction (cfg : AppConfig) (reactionId : String)
    (targetEventId : String) (senderId : String) (ts : Nat) (emoji : String)
    (roomId : String) : CanonicalEvent :=
  { source := "messenger", arcUserId := sessionIdOf cfg,
    eventId := some reactionId, type := "reaction", roomId := roomId,
    senderId := senderId, timestamp := ts, encrypted := false,
    relatesToEventId := some targetEventId,
    content := { body := some emoji, emoji := some emoji,
                 targetMessageId := some targetEventId } }

/-- An event published to the message bus (`ArcEvent` envelope, the fields
the claims touch). -/
structure ArcEvt where
  source : String
  arcUserId : String
  eventId : Option String
  roomId : String
  senderId : String
  timestamp : Nat
  type : String
  encrypted : Bool
  content : EventContent
  relatesToEventId : Option String := none
  deriving DecidableEq, Repr

/-- `buildMessageEvent`. -/
def buildMessageEvent (cfg : AppConfig) (m : EnrichedMessage)
    (encrypted : Bool) : ArcEvt :=
  { source := "messenger", arcUserId := sessionIdOf cfg,
    eventId := some m.serialId, roomId := m.roomId, senderId := m.fromId,
    timestamp := m.timestamp, type := "message", encrypted := encrypted,
    content := { body := some m.body, msgtype := some (getMsgType m.msgKind),
                 replyTo := m.replyTo } }

/-- `buildReactionEvent` (note: the envelope's `senderId` is the sender of
the reacted-to message, as in the source). -/
def buildReactionEvent (cfg : AppConfig) (reactionId : String)
    (targetEventId : String) (emoji : String) (m : EnrichedMessage) :
    ArcEvt :=
  { source := "messenger", arcUserId := sessionIdOf cfg,
    eventId := some reactionId, roomId := m.roomId, senderId := m.fromId,
    timestamp := m.timestamp, type := "reaction", encrypted := false,
    content := { body := some emoji, emoji := some emoji,
                 targetMessageId := some targetEventId },
    relatesToEventId := some targetEventId }

/-- `buildReceiptEvent`. -/
def buildReceiptEvent (cfg : AppConfig) (targetEventId : String)
    (m : EnrichedMessage) (ackType : String) (ts : Nat) : ArcEvt :=
  { source := "messenger", arcUserId := sessionIdOf cfg,
    eventId := some targetEventId, roomId := m.roomId, senderId := m.fromId,
    timestamp := ts, type := "receipt", encrypted := false,
    content := { ack := some ackType, targetMessageId := some targetEventId },
    relatesToEventId := some targetEventId }

/-- Observable outcome of one handler invocation: the canonical events
written through `insertCanonicalEvent`, the envelopes published to the
bus, and the errors swallowed by `executeWithErrorLogging` (a non-empty
list means the error was logged; the handler still returns normally). -/
structure HandlerResult where
  inserted : List CanonicalEvent := []
  published : List ArcEvt := []
  errors : List String := []
  deriving DecidableEq, Repr

/-- `handleIncomingMessage`: translate (a throw is caught and logged, and
nothing is written), insert the synthetic 'received' receipt, insert the
message record (placeholder when encrypted), publish the message envelope.
The deferred decrypt-update continuation is outside this model. -/
def handleIncomingMessage (cfg : AppConfig) (ev : MxEvent) (room : MxRoom) :
    HandlerResult :=
  match translateMatrixEvent cfg ev room with
  | .error e => { errors := [e] }
  | .ok m =>
      let recv := toCanonicalEventFromReceipt cfg m.id room.roomId
        (localAccountId cfg) m.timestamp "received"
      let encrypted := ev.evType == "m.room.encrypted" || ev.decryptionFailure
        || m.body == "[No content]"
      { inserted := [recv, toCanonicalEventFromMessage cfg m encrypted],
        published := [buildMessageEvent cfg m encrypted] }

/-- `handleMessageCreation` (own messages): translate, insert, publish. -/
def handleMessageCreation (cfg : AppConfig) (ev : MxEvent) (room : MxRoom) :
    HandlerResult :=
  match translateMatrixEvent cfg ev room with
  | .error e => { errors := [e] }
  | .ok m =>
      { inserted := [toCanonicalEventFromMessage cfg m false],
        published := [buildMessageEvent cfg m false] }

/-- `resolveTargetEvent`: in-memory timeline first, then the REST fetch
(whose outcome the environment provides), else give up. -/
def resolveTargetEvent (room : MxRoom) (restFetch : Option MxEvent)
    (eventId : String) : Option MxEvent :=
  match findEventById room eventId with
  | some te => some te
  | none => restFetch

/-- `handleIncomingReaction`: validate the annotation relation, resolve the
target for enrichment (timeline/REST, then the stored canonical event),
always store the reaction record, and publish only when
`config.publishReactions` is set and enrichment succeeded.  A throw from
translating the target aborts the handler before the insert (caught by
`executeWithErrorLogging`). -/
def handleIncomingReaction (cfg : AppConfig) (ev : MxEvent) (room : MxRoom)
    (store : List EventDoc) (restFetch : Option MxEvent) (nowMs : Nat) :
    HandlerResult :=
  match ev.content.relates with
  | none => { errors := ["Invalid reaction event structure"] }
  | some rel =>
      if rel.relType ≠ some "m.annotation" then
        { errors := ["Invalid reaction event structure"] }
      else
        match truthyOpt ev.sender, truthyOpt rel.eventIdRef,
            truthyOpt rel.key with
        | some sender, some targetEventId, some emoji =>
            let reactionId := ev.eventId.getD ""
            let enrichedE : Except String (Option EnrichedMessage) :=
              match resolveTargetEvent room restFetch targetEventId with
              | some tev =>
                  match translateMatrixEvent cfg tev room with
                  | .ok m => .ok (some m)
                  | .error e => .error e
              | none =>
                  match store.find? (fun d => d.eventId == some targetEventId) with
                  | some d =>
                      .ok (some
                        { id := targetEventId,
                          fromId := jsOrD (some d.senderId) sender,
                          toId := jsOrD (some d.roomId) room.roomId,
                          msgKind := getMessageType (jsOrD d.content.msgtype "m.text"),
                          body := jsOrD d.content.body "[unknown]",
                          timestamp := if d.timestamp = 0 then nowMs else d.timestamp,
                          serialId := targetEventId,
                          roomId := jsOrD (some d.roomId) room.roomId })
                  | none => .ok none
            match enrichedE with
            | .error e => { errors := [e] }
            | .ok enriched =>
                { inserted := [toCanonicalEventFromReaction cfg reactionId
                    targetEventId sender ev.ts emoji room.roomId],
                  published :=
                    match enriched with
                    | some m =>
                        if cfg.publishReactions then
                          [buildReactionEvent cfg reactionId targetEventId emoji m]
                        else []
                    | none => [] }
        | _, _, _ =>
            { errors :=
                ["Invalid reaction event: missing sender, target event ID, or emoji"] }

/-- One target entry of an `m.receipt` event: the referenced event id and
the `m.read` map of readers with their timestamps (`0` models an absent
timestamp, which is falsy in JS). -/
structure ReceiptInfo where
  targetEventId : String
  readers : List (String × Nat)
  deriving DecidableEq, Repr

/-- One iteration of the `handleIncomingReceipt` loop: skip when the target
event is not in the room, translate it (a throw aborts the whole handler),
and store one read receipt per reader, publishing each only when
`config.publishReceipts` is set. -/
def handleReceiptEntry (cfg : AppConfig) (room : MxRoom)
    (info : ReceiptInfo) : Except String HandlerResult :=
  match findEventById room info.targetEventId with
  | none => .ok {}
  | some target =>
      match translateMatrixEvent cfg target room with
      | .error e => .error e
      | .ok m =>
          .ok { inserted := info.readers.map (fun p =>
                  toCanonicalEventFromReceipt cfg info.targetEventId
                    room.roomId p.1
                    (if p.2 = 0 then m.timestamp else p.2) "read"),
                published :=
                  if cfg.publishReceipts then
                    info.readers.map (fun p =>
                      buildReceiptEvent cfg info.targetEventId m "ACK_READ"
                        (if p.2 = 0 then m.timestamp else p.2))
                  else [] }

/-- Loop of `handleIncomingReceipt` over the receipt content entries; an
error aborts the remaining entries (prior writes stand). -/
def handleReceiptsGo (cfg : AppConfig) (room : MxRoom)
    (acc : HandlerResult) : List ReceiptInfo → HandlerResult
  | [] => acc
  | r :: rest =>
      match handleReceiptEntry cfg room r with
      | .error e => { acc with errors := acc.errors ++ [e] }
      | .ok h =>
          handleReceiptsGo cfg room
            { inserted := acc.inserted ++ h.inserted,
              published := acc.published ++ h.published,
              errors := acc.errors } rest

/-- `handleIncomingReceipt`. -/
def handleIncomingReceipt (cfg : AppConfig) (receipts : List ReceiptInfo)
    (room : MxRoom) : HandlerResult :=
  handleReceiptsGo cfg room {} receipts

/-- Lower-casing used by the config flag parsing. -/
def lowerStr (s : String) : String :=
  String.mk (s.data.map Char.toLower)

/-- `(process.env.X || dflt).toLowerCase() === "true"`. -/
def parseBoolEnv (v : Option String) (dflt : String) : Bool :=
  lowerStr (v.getD dflt) == "true"

/-- `config.publishReactions` from `PUBLISH_REACTIONS` (default "true"). -/
def publishReactionsFlag (env : Option String) : Bool :=
  parseBoolEnv env "true"

/-- `config.publishReceipts` from `PUBLISH_RECEIPTS` (default "false"). -/
def publishReceiptsFlag (env : Option String) : Bool :=
  parseBoolEnv env "false"

/-! ### Reply resolution (C6) -/

/-- A room whose in-memory timeline does not contain the referenced
event. -/
def replyDemoRoom : MxRoom := { roomId := "!R:server" }

/-- A durable store that does contain the referenced event. -/
def replyDemoStore : List EventDoc :=
  [{ source := "messenger", arcUserId := "@acct:server",
     eventId := some "$orig", type := "message", roomId := "!R:server",
     senderId := "@peer:server", timestamp := 111, encrypted := false,
     relatesToEventId := none,
     content := { body := some "original", msgtype := some "m.text" },
     ingestedAt := 1, updatedAt := 1 }]

/-- C6 counterexample: when the referenced event is absent from memory but
present in the durable store, the code's reply resolution returns a bare
reference without consulting the store, while the spec's contract
(memory, then store, then bare) would enrich from the store — so the two
differ at this input and the claim is false. -/
theorem reply_resolution_skips_store_counterexample :
    resolveReplyTo replyDemoRoom "$orig" ≠
      resolveReplyToSpec replyDemoRoom replyDemoStore "$orig" ∧
    resolveReplyTo replyDemoRoom "$orig" = { eventId := "$orig" } ∧
    (resolveReplyToSpec replyDemoRoom replyDemoStore "$orig").senderId =
      some "@peer:server" := by
  decide

/-- C6 amended: for a mapped event carrying reply/edit relation metadata
referencing `rid`, the mapping enriches `replyTo` from the room's
in-memory timeline when the referenced event is found there, and otherwise
produces a bare reference (id only); the durable store is not consulted in
this path. -/
theorem reply_resolution_memory_or_bare (cfg : AppConfig) (ev : MxEvent)
    (room : MxRoom) (sender eid rid : String) (r : RelatesTo)
    (hs : truthyOpt ev.sender = some sender)
    (hid : truthyOpt ev.eventId = some eid)
    (hrel : ev.content.relates = some r)
    (hrid : jsOr r.inReplyTo r.eventIdRef = some rid) :
    (∃ m, translateMatrixEvent cfg ev room = Except.ok m ∧
      m.replyTo = some (resolveReplyTo room rid)) ∧
    (∀ te, findEventById room rid = some te →
      resolveReplyTo room rid =
        { eventId := rid, senderId := truthyOpt te.sender,
          body := jsOr (te.content.newContent.getD te.content.base).body
                    (te.content.newContent.getD te.content.base).formattedBody,
          timestamp := some te.ts }) ∧
    (findEventById room rid = none →
      resolveReplyTo room rid = { eventId := rid }) := by
  refine ⟨?_, ?_, ?_⟩
  · unfold translateMatrixEvent
    rw [hs, hid]
    simp only [hrel, hrid]
    exact ⟨_, rfl, rfl⟩
  · intro te hte
    unfold resolveReplyTo
    rw [hte]
  · intro hnone
    unfold resolveReplyTo
    rw [hnone]

/-- Target event present in the demo room's timeline. -/
def replyDemoTarget : MxEvent :=
  { sender := some "@peer:server", eventId := some "$orig",
    content := { base := { body := some "original", msgtype := some "m.text" } },
    ts := 111 }

/-- Room holding the reply target in memory. -/
def replyDemoRoom2 : MxRoom :=
  { roomId := "!R:server", timeline := [replyDemoTarget] }

/-- A message replying to the demo target. -/
def replyDemoEv : MxEvent :=
  { sender := some "@peer:server", eventId := some "$e2",
    content := { base := { body := some "hi", msgtype := some "m.text" },
                 relates := some { inReplyTo := some "$orig" } },
    ts := 222 }

theorem reply_resolution_memory_or_bare_witness :
    (∃ m, translateMatrixEvent {} replyDemoEv replyDemoRoom2 = Except.ok m ∧
      m.replyTo = some (resolveReplyTo replyDemoRoom2 "$orig")) ∧
    (∀ te, findEventById replyDemoRoom2 "$orig" = some te →
      resolveReplyTo replyDemoRoom2 "$orig" =
        { eventId := "$orig", senderId := truthyOpt te.sender,
          body := jsOr (te.content.newContent.getD te.content.base).body
                    (te.content.newContent.getD te.content.base).formattedBody,
          timestamp := some te.ts }) ∧
    (findEventById replyDemoRoom2 "$orig" = none →
      resolveReplyTo replyDemoRoom2 "$orig" = { eventId := "$orig" }) :=
  reply_resolution_memory_or_bare {} replyDemoEv replyDemoRoom2
    "@peer:server" "$e2" "$orig" { inReplyTo := some "$orig" }
    (by decide) (by decide) (by decide) (by decide)

/-! ### Malformed events (C7) -/

/-- C7: a timeline event with a missing (or empty) sender or event id makes
`translateMatrixEvent` throw; both public handlers catch the error via
`executeWithErrorLogging`, log it, and return normally with no canonical
record written and nothing published, so ingestion of later events
continues. -/
theorem malformed_event_aborts (cfg : AppConfig) (ev : MxEvent)
    (room : MxRoom)
    (h : truthyOpt ev.sender = none ∨ truthyOpt ev.eventId = none) :
    translateMatrixEvent cfg ev room =
      Except.error "Invalid Matrix event: missing sender or event ID" ∧
    handleIncomingMessage cfg ev room =
      { errors := ["Invalid Matrix event: missing sender or event ID"] } ∧
    handleMessageCreation cfg ev room =
      { errors := ["Invalid Matrix event: missing sender or event ID"] } ∧
    (handleIncomingMessage cfg ev room).inserted = [] ∧
    (handleIncomingMessage cfg ev room).published = [] := by
  have htr : translateMatrixEvent cfg ev room =
      Except.error "Invalid Matrix event: missing sender or event ID" := by
    unfold translateMatrixEvent
    rcases h with h | h
    · rw [h]
    · cases hs : truthyOpt ev.sender with
      | none => rfl
      | some s => rw [h]
  have him : handleIncomingMessage cfg ev room =
      { errors := ["Invalid Matrix event: missing sender or event ID"] } := by
    unfold handleIncomingMessage
    rw [htr]
  have hmc : handleMessageCreation cfg ev room =
      { errors := ["Invalid Matrix event: missing sender or event ID"] } := by
    unfold handleMessageCreation
    rw [htr]
  refine ⟨htr, him, hmc, ?_, ?_⟩ <;> rw [him] <;> rfl

theorem malformed_event_aborts_witness :
    translateMatrixEvent {} { eventId := some "$x" } { roomId := "!R" } =
      Except.error "Invalid Matrix event: missing sender or event ID" ∧
    handleIncomingMessage {} { eventId := some "$x" } { roomId := "!R" } =
      { errors := ["Invalid Matrix event: missing sender or event ID"] } ∧
    handleMessageCreation {} { eventId := some "$x" } { roomId := "!R" } =
      { errors := ["Invalid Matrix event: missing sender or event ID"] } ∧
    (handleIncomingMessage {} { eventId := some "$x" } { roomId := "!R" }).inserted = [] ∧
    (handleIncomingMessage {} { eventId := some "$x" } { roomId := "!R" }).published = [] :=
  malformed_event_aborts {} { eventId := some "$x" } { roomId := "!R" }
    (Or.inl (by decide))

/-! ### Publish gates and defaults (C8) -/

theorem receiptEntry_published_empty (cfg : AppConfig) (room : MxRoom)
    (info : ReceiptInfo) (h : HandlerResult)
    (hflag : cfg.publishReceipts = false)
    (he : handleReceiptEntry cfg room info = Except.ok h) :
    h.published = [] := by
  unfold handleReceiptEntry at he
  cases hfind : findEventById room info.targetEventId with
  | none =>
      rw [hfind] at he
      cases he
      rfl
  | some target =>
      rw [hfind] at he
      dsimp only at he
      cases htr : translateMatrixEvent cfg target room with
      | error e => rw [htr] at he; cases he
      | ok m =>
          rw [htr] at he
          cases he
          simp [hflag]

theorem receipts_not_published_go (cfg : AppConfig) (room : MxRoom)
    (acc : HandlerResult) (rs : List ReceiptInfo)
    (hflag : cfg.publishReceipts = false) (hacc : acc.published = []) :
    (handleReceiptsGo cfg room acc rs).published = [] := by
  induction rs generalizing acc with
  | nil => simpa [handleReceiptsGo] using hacc
  | cons r rest ih =>
      unfold handleReceiptsGo
      cases he : handleReceiptEntry cfg room r with
      | error e => simpa using hacc
      | ok h =>
          apply ih
          simp [hacc, receiptEntry_published_empty cfg room r h hflag he]

/-- C8: with `PUBLISH_REACTIONS`/`PUBLISH_RECEIPTS` unset the parsed flags
default to `publishReactions = true` and `publishReceipts = false`; under
those defaults a valid reaction whose target resolves is stored and
published as one envelope, while read receipts are stored but never
published. -/
theorem publish_gates_defaults (cfg : AppConfig) (ev : MxEvent)
    (room : MxRoom) (store : List EventDoc) (restFetch : Option MxEvent)
    (nowMs : Nat) (receipts : List ReceiptInfo) (rel : RelatesTo)
    (sender targetEventId emoji : String) (tev : MxEvent)
    (m : EnrichedMessage)
    (hpr : cfg.publishReactions = publishReactionsFlag none)
    (hpc : cfg.publishReceipts = publishReceiptsFlag none)
    (hrel : ev.content.relates = some rel)
    (hann : rel.relType = some "m.annotation")
    (hsend : truthyOpt ev.sender = some sender)
    (htgt : truthyOpt rel.eventIdRef = some targetEventId)
    (hkey : truthyOpt rel.key = some emoji)
    (hres : resolveTargetEvent room restFetch targetEventId = some tev)
    (htr : translateMatrixEvent cfg tev room = Except.ok m) :
    publishReactionsFlag none = true ∧
    publishReceiptsFlag none = false ∧
    (handleIncomingReaction cfg ev room store restFetch nowMs).inserted =
      [toCanonicalEventFromReaction cfg (ev.eventId.getD "") targetEventId
        sender ev.ts emoji room.roomId] ∧
    (handleIncomingReaction cfg ev room store restFetch nowMs).published =
      [buildReactionEvent cfg (ev.eventId.getD "") targetEventId emoji m] ∧
    (handleIncomingReceipt cfg receipts room).published = [] := by
  have h1 : publishReactionsFlag none = true := by decide
  have h2 : publishReceiptsFlag none = false := by decide
  have hra : handleIncomingReaction cfg ev room store restFetch nowMs =
      { inserted := [toCanonicalEventFromReaction cfg (ev.eventId.getD "")
          targetEventId sender ev.ts emoji room.roomId],
        published := [buildReactionEvent cfg (ev.eventId.getD "")
          targetEventId emoji m] } := by
    unfold handleIncomingReaction
    rw [hrel]
    simp only [hann, ne_eq, not_true_eq_false, if_false, hsend, htgt, hkey,
      hres, htr, hpr, h1, if_true, reduceCtorEq]
  refine ⟨h1, h2, ?_, ?_, ?_⟩
  · rw [hra]
  · rw [hra]
  · exact receipts_not_published_go cfg room {} receipts
      (hpc.trans h2) rfl

/-- Configuration for the publish-gate witness. -/
def reactDemoCfg : AppConfig :=
  { matrixUserId := "@me:server", arcUserId := "acct" }

/-- Reaction target present in the room. -/
def reactDemoTarget : MxEvent :=
  { sender := some "@peer:server", eventId := some "$t1",
    content := { base := { body := some "hi", msgtype := some "m.text" } },
    ts := 7 }

/-- Room for the publish-gate witness. -/
def reactDemoRoom : MxRoom :=
  { roomId := "!R:server", timeline := [reactDemoTarget] }

/-- Relation metadata of the demo reaction. -/
def reactDemoRel : RelatesTo :=
  { eventIdRef := some "$t1", relType := some "m.annotation",
    key := some "+1" }

/-- Reaction event annotating the target. -/
def reactDemoEv : MxEvent :=
  { sender := some "@peer:server", eventId := some "$r1",
    content := { relates := some reactDemoRel }, ts := 9 }

/-- The enrichment of the demo target under `reactDemoCfg`. -/
def reactDemoM : EnrichedMessage :=
  { id := "$t1", fromId := "@peer:server", toId := "@me:server",
    recipientId := some "@me:server", msgKind := "chat", body := "hi",
    timestamp := 7, serialId := "$t1", roomId := "!R:server" }

theorem publish_gates_defaults_witness :
    publishReactionsFlag none = true ∧
    publishReceiptsFlag none = false ∧
    (handleIncomingReaction reactDemoCfg reactDemoEv reactDemoRoom [] none 0).inserted =
      [toCanonicalEventFromReaction reactDemoCfg "$r1" "$t1" "@peer:server"
        9 "+1" "!R:server"] ∧
    (handleIncomingReaction reactDemoCfg reactDemoEv reactDemoRoom [] none 0).published =
      [buildReactionEvent reactDemoCfg "$r1" "$t1" "+1" reactDemoM] ∧
    (handleIncomingReceipt reactDemoCfg
      [⟨"$t1", [("@me:server", 11)]⟩] reactDemoRoom).published = [] := by
  exact publish_gates_defaults reactDemoCfg reactDemoEv reactDemoRoom
    [] none 0 [⟨"$t1", [("@me:server", 11)]⟩] reactDemoRel
    "@peer:server" "$t1" "+1" reactDemoTarget reactDemoM
    (by decide) (by decide) (by decide) (by decide) (by decide) (by decide)
    (by decide) (by decide) (by decide)

/-! ### Synthetic received receipt (C9) -/

/-- C9: for every successfully mapped incoming message the handler stores
exactly one synthetic canonical receipt — ack "received", sender the local
account id, room the message's room, relating to the message's event id —
ahead of the message record, and no receipt-typed envelope is ever
published by this handler, whatever the `publishReceipts` flag. -/
theorem synthetic_received_receipt (cfg : AppConfig) (ev : MxEvent)
    (room : MxRoom) (m : EnrichedMessage)
    (h : translateMatrixEvent cfg ev room = Except.ok m) :
    (handleIncomingMessage cfg ev room).inserted.head? =
      some (toCanonicalEventFromReceipt cfg m.id room.roomId
        (localAccountId cfg) m.timestamp "received") ∧
    ((handleIncomingMessage cfg ev room).inserted.filter
        (fun c => c.type == "receipt")).length = 1 ∧
    (toCanonicalEventFromReceipt cfg m.id room.roomId (localAccountId cfg)
        m.timestamp "received").content.ack = some "received" ∧
    (toCanonicalEventFromReceipt cfg m.id room.roomId (localAccountId cfg)
        m.timestamp "received").senderId = localAccountId cfg ∧
    (toCanonicalEventFromReceipt cfg m.id room.roomId (localAccountId cfg)
        m.timestamp "received").roomId = room.roomId ∧
    (toCanonicalEventFromReceipt cfg m.id room.roomId (localAccountId cfg)
        m.timestamp "received").relatesToEventId = some m.id ∧
    ∀ p ∈ (handleIncomingMessage cfg ev room).published,
      p.type ≠ "receipt" := by
  have hh : handleIncomingMessage cfg ev room =
      { inserted := [toCanonicalEventFromReceipt cfg m.id room.roomId
          (localAccountId cfg) m.timestamp "received",
          toCanonicalEventFromMessage cfg m
            (ev.evType == "m.room.encrypted" || ev.decryptionFailure
              || m.body == "[No content]")],
        published := [buildMessageEvent cfg m
          (ev.evType == "m.room.encrypted" || ev.decryptionFailure
            || m.body == "[No content]")] } := by
    unfold handleIncomingMessage
    rw [h]
  rw [hh]
  refine ⟨rfl, ?_, rfl, rfl, rfl, rfl, ?_⟩
  · simp [toCanonicalEventFromReceipt, toCanonicalEventFromMessage,
      List.filter]
  · intro p hp
    simp only [List.mem_singleton] at hp
    subst hp
    simp [buildMessageEvent]

/-- Configuration for the synthetic-receipt witness. -/
def msgDemoCfg : AppConfig :=
  { matrixUserId := "@me:server", arcUserId := "acct" }

/-- Incoming message event for the synthetic-receipt witness. -/
def msgDemoEv : MxEvent :=
  { sender := some "@peer:server", eventId := some "$m1",
    content := { base := { body := some "hello", msgtype := some "m.text" } },
    ts := 5 }

/-- Room for the synthetic-receipt witness. -/
def msgDemoRoom : MxRoom := { roomId := "!R:server" }

/-- The enrichment of `msgDemoEv` under `msgDemoCfg`. -/
def msgDemoM : EnrichedMessage :=
  { id := "$m1", fromId := "@peer:server", toId := "@me:server",
    recipientId := some "@me:server", msgKind := "chat", body := "hello",
    timestamp := 5, serialId := "$m1", roomId := "!R:server" }

theorem synthetic_received_receipt_witness :
    (handleIncomingMessage msgDemoCfg msgDemoEv msgDemoRoom).inserted.head? =
      some (toCanonicalEventFromReceipt msgDemoCfg "$m1" "!R:server"
        (localAccountId msgDemoCfg) 5 "received") ∧
    ((handleIncomingMessage msgDemoCfg msgDemoEv msgDemoRoom).inserted.filter
        (fun c => c.type == "receipt")).length = 1 ∧
    ∀ p ∈ (handleIncomingMessage msgDemoCfg msgDemoEv msgDemoRoom).published,
      p.type ≠ "receipt" := by
  have h := synthetic_received_receipt msgDemoCfg msgDemoEv msgDemoRoom
    msgDemoM (by decide)
  exact ⟨h.1, h.2.1, h.2.2.2.2.2.2⟩

end ArcMatrix
